import Mathlib

/-!
# Verification of the Smart-AI-Resume-Analyzer metrics/reporting slice

Shallow embedding of the repository's dashboard and feedback logic:

* `src/dashboard/dashboard.py` — `DashboardManager.get_resume_metrics`,
  `get_skill_distribution`, `get_weekly_trends`;
* `src/feedback/feedback.py` — `FeedbackManager.save_feedback`,
  `get_feedback_stats`.

Timestamps are modelled at second resolution (the code always passes
timestamps through `strftime('%Y-%m-%d %H:%M:%S')`, which drops
microseconds before they reach SQL).  SQLite compares those zero-padded
text timestamps lexicographically, which coincides with the numeric
order of the packed key `dtKey` below.  SQL `REAL` arithmetic
(`AVG`, `ROUND`) is idealised over `ℚ`.
-/

/-- A calendar date, mirroring the date part of Python's `datetime`. -/
structure Date where
  year : Nat
  month : Nat
  day : Nat
deriving DecidableEq, Repr

/-- A timestamp at second resolution, mirroring Python's `datetime`
after `strftime('%Y-%m-%d %H:%M:%S')` truncation. -/
structure DT where
  year : Nat
  month : Nat
  day : Nat
  hour : Nat
  minute : Nat
  second : Nat
deriving DecidableEq, Repr

/-- The date part of a timestamp (what SQLite's `DATE(...)` extracts). -/
def DT.date (t : DT) : Date := ⟨t.year, t.month, t.day⟩

/-- Replace the date part of a timestamp, keeping the time of day
(what `datetime - timedelta(days=n)` does to the clock fields). -/
def DT.withDate (t : DT) (d : Date) : DT :=
  ⟨d.year, d.month, d.day, t.hour, t.minute, t.second⟩

/-- Packed numeric key of a timestamp.  For timestamps whose fields fit
their zero-padded widths (always true of `strftime` output), comparing
keys is exactly SQLite's lexicographic comparison of the
`'%Y-%m-%d %H:%M:%S'` strings. -/
def dtKey (t : DT) : Nat :=
  ((((t.year * 100 + t.month) * 100 + t.day) * 100 + t.hour) * 100 + t.minute) * 100
    + t.second

/-- Gregorian leap-year test (as in Python's `calendar`/`datetime`). -/
def isLeap (y : Nat) : Bool :=
  y % 4 == 0 && (y % 100 != 0 || y % 400 == 0)

/-- Number of days in month `m` (1–12) given the leap flag of its year. -/
def daysInMonth (leap : Bool) : Nat → Nat
  | 1 => 31
  | 2 => if leap then 29 else 28
  | 3 => 31
  | 4 => 30
  | 5 => 31
  | 6 => 30
  | 7 => 31
  | 8 => 31
  | 9 => 30
  | 10 => 31
  | 11 => 30
  | 12 => 31
  | _ => 0

/-- Days of the year strictly before month `m`. -/
def daysBeforeMonth (leap : Bool) : Nat → Nat
  | 0 => 0
  | m + 1 => daysBeforeMonth leap m + daysInMonth leap m

/-- Number of days in year `y`. -/
def daysInYear (y : Nat) : Nat := if isLeap y then 366 else 365

/-- Days from 2000-01-01 to the start of year `2000 + n`. -/
def yearsDays : Nat → Nat
  | 0 => 0
  | n + 1 => yearsDays n + daysInYear (2000 + n)

/-- Day number of a date, counted from 2000-01-01 (day 0). -/
def toDays (d : Date) : Nat :=
  yearsDays (d.year - 2000) + daysBeforeMonth (isLeap d.year) d.month + (d.day - 1)

/-- Python's `datetime.weekday()`: Monday = 0 … Sunday = 6.
2000-01-01 was a Saturday (weekday 5). -/
def Date.weekday (d : Date) : Nat := (toDays d + 5) % 7

/-- The previous calendar day (how `timedelta(days=1)` subtraction moves
a valid date). -/
def predDate (d : Date) : Date :=
  if 1 < d.day then ⟨d.year, d.month, d.day - 1⟩
  else if 1 < d.month then ⟨d.year, d.month - 1, daysInMonth (isLeap d.year) (d.month - 1)⟩
  else ⟨d.year - 1, 12, 31⟩

/-- Subtract `n` calendar days: the date part of `datetime - timedelta(days=n)`. -/
def subDaysD (d : Date) : Nat → Date
  | 0 => d
  | n + 1 => predDate (subDaysD d n)

/-- A well-formed Gregorian date on or after 2000-01-01 (Python's
`datetime` only ever carries well-formed dates). -/
def ValidDate (d : Date) : Prop :=
  2000 ≤ d.year ∧ 1 ≤ d.month ∧ d.month ≤ 12 ∧ 1 ≤ d.day ∧
    d.day ≤ daysInMonth (isLeap d.year) d.month

instance (d : Date) : Decidable (ValidDate d) := by
  unfold ValidDate; infer_instance

lemma daysBeforeMonth_succ (leap : Bool) (m : Nat) :
    daysBeforeMonth leap (m + 1) = daysBeforeMonth leap m + daysInMonth leap m := rfl

lemma daysInMonth_pos (leap : Bool) (m : Nat) (h1 : 1 ≤ m) (h2 : m ≤ 12) :
    1 ≤ daysInMonth leap m := by
  interval_cases m <;> cases leap <;> simp [daysInMonth]

lemma daysBeforeMonth_twelve (y : Nat) :
    daysBeforeMonth (isLeap y) 12 + 31 = daysInYear y := by
  unfold daysInYear
  cases h : isLeap y <;> simp [h] <;> rfl

lemma daysInYear_pos (y : Nat) : 365 ≤ daysInYear y := by
  unfold daysInYear; split <;> omega

lemma daysInMonth_twelve (leap : Bool) : daysInMonth leap 12 = 31 := rfl

/-- One `predDate` step stays valid and decrements the day number. -/
lemma predDate_spec (d : Date) (hv : ValidDate d) (hp : 0 < toDays d) :
    ValidDate (predDate d) ∧ toDays (predDate d) = toDays d - 1 := by
  obtain ⟨hy, hm1, hm2, hd1, hd2⟩ := hv
  unfold predDate
  by_cases h1 : 1 < d.day
  · simp only [if_pos h1]
    constructor
    · refine ⟨?_, ?_, ?_, ?_, ?_⟩ <;> dsimp only <;> omega
    · dsimp only [toDays]
      omega
  · by_cases h2 : 1 < d.month
    · simp only [if_neg h1, if_pos h2]
      have hday : d.day = 1 := by omega
      obtain ⟨k, hk⟩ : ∃ k, d.month = k + 1 := ⟨d.month - 1, by omega⟩
      have hk1 : 1 ≤ k := by omega
      have hk12 : k ≤ 12 := by omega
      have hpos := daysInMonth_pos (isLeap d.year) k hk1 hk12
      have hsucc := daysBeforeMonth_succ (isLeap d.year) k
      have hmk : d.month - 1 = k := by omega
      constructor
      · refine ⟨?_, ?_, ?_, ?_, ?_⟩ <;> dsimp only <;> (try simp only [hmk]) <;> omega
      · dsimp only [toDays]
        rw [hmk, hk, hday]
        omega
    · simp only [if_neg h1, if_neg h2]
      have hday : d.day = 1 := by omega
      have hmon : d.month = 1 := by omega
      have htd : toDays d = yearsDays (d.year - 2000) := by
        dsimp only [toDays]
        rw [hday, hmon]
        have : daysBeforeMonth (isLeap d.year) 1 = 0 := rfl
        omega
      have hy1 : 2001 ≤ d.year := by
        by_contra hcon
        have hcon' : d.year = 2000 := by omega
        rw [htd, hcon'] at hp
        simp [yearsDays] at hp
      obtain ⟨k, hk⟩ : ∃ k, d.year - 2000 = k + 1 := ⟨d.year - 2001, by omega⟩
      have h2000k : 2000 + k = d.year - 1 := by omega
      have hyd : yearsDays (d.year - 2000) = yearsDays k + daysInYear (d.year - 1) := by
        rw [hk, yearsDays, h2000k]
      have h12 := daysBeforeMonth_twelve (d.year - 1)
      have hdiy := daysInYear_pos (d.year - 1)
      have h31 := daysInMonth_twelve (isLeap (d.year - 1))
      constructor
      · refine ⟨?_, ?_, ?_, ?_, ?_⟩ <;> dsimp only <;> omega
      · dsimp only [toDays]
        have hk' : d.year - 1 - 2000 = k := by omega
        have hbm1 : daysBeforeMonth (isLeap d.year) 1 = 0 := rfl
        rw [hk', hmon, hday]
        omega

/-- Subtracting `n ≤ toDays d` days stays valid and subtracts `n` from
the day number. -/
lemma subDaysD_spec (d : Date) (n : Nat) (hv : ValidDate d) (hn : n ≤ toDays d) :
    ValidDate (subDaysD d n) ∧ toDays (subDaysD d n) = toDays d - n := by
  induction n with
  | zero => exact ⟨hv, rfl⟩
  | succ m ih =>
    obtain ⟨ihv, ihd⟩ := ih (by omega)
    have hpos : 0 < toDays (subDaysD d m) := by omega
    obtain ⟨pv, pd⟩ := predDate_spec _ ihv hpos
    exact ⟨pv, by simp only [subDaysD]; omega⟩

/-!
## Window lower bounds of `DashboardManager.get_resume_metrics`

```python
now = datetime.now()
start_of_day = now.replace(hour=0, minute=0, second=0, microsecond=0)
start_of_week = now - timedelta(days=now.weekday())
start_of_month = now.replace(day=1)
```
Note that `start_of_week` and `start_of_month` keep `now`'s time of day;
only `start_of_day` is a midnight. -/

/-- `now.replace(hour=0, minute=0, second=0, microsecond=0)`. -/
def startOfDay (now : DT) : DT := { now with hour := 0, minute := 0, second := 0 }

/-- `now - timedelta(days=now.weekday())` — moves the date back to the
current week's Monday while keeping the time of day. -/
def startOfWeek (now : DT) : DT := now.withDate (subDaysD now.date now.date.weekday)

/-- `now.replace(day=1)` — keeps the time of day. -/
def startOfMonth (now : DT) : DT := { now with day := 1 }

/-- The `'All Time'` window lower bound: `datetime(2000, 1, 1)`. -/
def allTimeStart : DT := ⟨2000, 1, 1, 0, 0, 0⟩

/-- The four `(period, start_date)` pairs iterated by `get_resume_metrics`. -/
def windows (now : DT) : List (String × DT) :=
  [("Today", startOfDay now), ("This Week", startOfWeek now),
   ("This Month", startOfMonth now), ("All Time", allTimeStart)]

/-!
## The resume database and the metrics query

Schema (the `config/database.py` module that creates it is not part of
the analysed sources; the row shapes are taken from the spec's data
model: a `resume_data` row has an integer id, a creation timestamp and
a comma-delimited skills string; a `resume_analysis` row references a
resume id and carries 0–100 `ats_score` / `keyword_match_score`). -/

/-- One `resume_data` row (the columns the dashboard queries touch). -/
structure ResumeRow where
  id : Nat
  created_at : DT
  skills : String
deriving DecidableEq, Repr

/-- One `resume_analysis` row (the columns the dashboard queries touch). -/
structure AnalysisRow where
  resume_id : Nat
  ats_score : ℚ
  keyword_match_score : ℚ
deriving DecidableEq, Repr

/-- The resume-store state: the two tables the dashboard reads. -/
structure ResumeDB where
  resume_data : List ResumeRow
  resume_analysis : List AnalysisRow
deriving DecidableEq, Repr

/-- Rows contributed by one `resume_data` row to
`resume_data rd LEFT JOIN resume_analysis ra ON rd.id = ra.resume_id`:
the matching analysis rows, or a single `(rd, NULL)` row when none match. -/
def joinBlock (anas : List AnalysisRow) (rd : ResumeRow) :
    List (ResumeRow × Option AnalysisRow) :=
  let ms := anas.filter (fun ra => ra.resume_id == rd.id)
  if ms.isEmpty then [(rd, none)] else ms.map (fun ra => (rd, some ra))

/-- The full LEFT JOIN of the two tables. -/
def leftJoin (db : ResumeDB) : List (ResumeRow × Option AnalysisRow) :=
  db.resume_data.flatMap (joinBlock db.resume_analysis)

/-- `rd.created_at >= ?` — SQLite's text comparison of the bound
`start_date.strftime('%Y-%m-%d %H:%M:%S')` against the stored
timestamp, via the packed key. -/
def inWindow (start : DT) (rd : ResumeRow) : Bool :=
  decide (dtKey start ≤ dtKey rd.created_at)

/-- `CASE WHEN ra.ats_score >= 70 THEN rd.id END` is non-NULL:
false on the NULL side of the join. -/
def scoreHigh : Option AnalysisRow → Bool
  | some ra => decide ((70 : ℚ) ≤ ra.ats_score)
  | none => false

/-- SQLite `ROUND(x, 1)`: one decimal, halves away from zero. -/
def sqlRound1 (q : ℚ) : ℚ :=
  if 0 ≤ q then ((⌊q * 10 + 1 / 2⌋ : ℤ) : ℚ) / 10
  else -(((⌊-q * 10 + 1 / 2⌋ : ℤ) : ℚ) / 10)

/-- The four metric fields of one window, after the
`row[i] or 0` coalescing in `get_resume_metrics`. -/
structure Metrics where
  total : Nat
  ats_score : ℚ
  keyword_score : ℚ
  high_scoring : Nat
deriving DecidableEq, Repr

/-- One window of the `get_resume_metrics` SQL query:
`COUNT(DISTINCT rd.id)`, `ROUND(AVG(ra.ats_score), 1)`,
`ROUND(AVG(ra.keyword_match_score), 1)`,
`COUNT(DISTINCT CASE WHEN ra.ats_score >= 70 THEN rd.id END)` over the
LEFT JOIN filtered by `rd.created_at >= start`, with SQL `NULL`
aggregates (and Python's `or 0`) collapsed to `0`: first the pieces,
then `metricsFor` assembling one window's four fields. -/
def qualRows (db : ResumeDB) (start : DT) : List (ResumeRow × Option AnalysisRow) :=
  (leftJoin db).filter (fun p => inWindow start p.1)

/-- The non-NULL `ra.ats_score` values `AVG` aggregates over. -/
def atsVals (db : ResumeDB) (start : DT) : List ℚ :=
  (qualRows db start).filterMap (fun p => p.2.map AnalysisRow.ats_score)

/-- The non-NULL `ra.keyword_match_score` values `AVG` aggregates over. -/
def kwVals (db : ResumeDB) (start : DT) : List ℚ :=
  (qualRows db start).filterMap (fun p => p.2.map AnalysisRow.keyword_match_score)

def metricsFor (db : ResumeDB) (start : DT) : Metrics :=
  { total := (((qualRows db start).map (fun p => p.1.id)).dedup).length
    ats_score := if (atsVals db start).isEmpty then 0
      else sqlRound1 ((atsVals db start).sum / (atsVals db start).length)
    keyword_score := if (kwVals db start).isEmpty then 0
      else sqlRound1 ((kwVals db start).sum / (kwVals db start).length)
    high_scoring := ((((qualRows db start).filter (fun p => scoreHigh p.2)).map
      (fun p => p.1.id)).dedup).length }

/-- `DashboardManager.get_resume_metrics`: the per-window metrics, in
the order the Python loop builds them. -/
def get_resume_metrics (now : DT) (db : ResumeDB) : List (String × Metrics) :=
  (windows now).map (fun ps => (ps.1, metricsFor db ps.2))

/-- Spec-side count: distinct resumes created at/after the window start. -/
def specTotal (db : ResumeDB) (start : DT) : Nat :=
  (((db.resume_data.filter (inWindow start)).map ResumeRow.id).dedup).length

/-- Whether some stored analysis of this resume has `ats_score >= 70`. -/
def hasHighScore (anas : List AnalysisRow) (rd : ResumeRow) : Bool :=
  anas.any (fun ra => ra.resume_id == rd.id && decide ((70 : ℚ) ≤ ra.ats_score))

/-- Spec-side count: distinct resumes in the window whose analysis
scores at least 70. -/
def specHigh (db : ResumeDB) (start : DT) : Nat :=
  (((db.resume_data.filter
      (fun rd => inWindow start rd && hasHighScore db.resume_analysis rd)).map
        ResumeRow.id).dedup).length

lemma joinBlock_fst (anas : List AnalysisRow) (rd : ResumeRow) :
    ∀ q ∈ joinBlock anas rd, q.1 = rd := by
  intro q hq
  unfold joinBlock at hq
  by_cases h : (anas.filter (fun ra => ra.resume_id == rd.id)).isEmpty
  · simp [h] at hq
    rw [hq]
  · simp [h] at hq
    obtain ⟨ra, _, hra⟩ := hq
    rw [← hra]

lemma joinBlock_empty (anas : List AnalysisRow) (rd : ResumeRow)
    (h : (anas.filter (fun ra => ra.resume_id == rd.id)).isEmpty = true) :
    joinBlock anas rd = [(rd, none)] := by
  simp [joinBlock, h]

lemma joinBlock_nonempty (anas : List AnalysisRow) (rd : ResumeRow)
    (h : (anas.filter (fun ra => ra.resume_id == rd.id)).isEmpty = false) :
    joinBlock anas rd
      = (anas.filter (fun ra => ra.resume_id == rd.id)).map (fun ra => (rd, some ra)) := by
  simp [joinBlock, h]

lemma joinBlock_filter_window (anas : List AnalysisRow) (rd : ResumeRow)
    (p : ResumeRow → Bool) :
    (((joinBlock anas rd).filter (fun q => p q.1)).map (fun q => q.1.id)).toFinset
      = if p rd then {rd.id} else (∅ : Finset Nat) := by
  cases h : (anas.filter (fun ra => ra.resume_id == rd.id)).isEmpty
  · have hne : anas.filter (fun ra => ra.resume_id == rd.id) ≠ [] := by
      intro hcon
      rw [hcon] at h
      simp at h
    obtain ⟨ra0, hra0⟩ := List.exists_mem_of_ne_nil _ hne
    rw [joinBlock_nonempty anas rd h]
    by_cases hp : p rd = true
    · rw [if_pos hp]
      ext x
      simp only [List.mem_toFinset, List.mem_map, List.mem_filter, Finset.mem_singleton]
      constructor
      · rintro ⟨q, ⟨⟨ra, ⟨hra, hid⟩, rfl⟩, _⟩, rfl⟩
        rfl
      · rintro rfl
        exact ⟨(rd, some ra0), ⟨⟨ra0, List.mem_filter.1 hra0, rfl⟩, hp⟩, rfl⟩
    · rw [if_neg hp]
      have hnil : (((anas.filter (fun ra => ra.resume_id == rd.id)).map
          (fun ra => (rd, some ra))).filter (fun q => p q.1)) = [] := by
        rw [List.filter_eq_nil_iff]
        intro q hq
        obtain ⟨ra, _, rfl⟩ := List.mem_map.1 hq
        simpa using hp
      rw [hnil]
      rfl
  · rw [joinBlock_empty anas rd h]
    by_cases hp : p rd = true <;> simp [List.filter_cons, hp]

lemma joinBlock_filter_high (anas : List AnalysisRow) (rd : ResumeRow)
    (p : ResumeRow → Bool) :
    (((joinBlock anas rd).filter (fun q => p q.1 && scoreHigh q.2)).map
        (fun q => q.1.id)).toFinset
      = if p rd && hasHighScore anas rd then {rd.id} else (∅ : Finset Nat) := by
  have hany : hasHighScore anas rd
      = (anas.filter (fun ra => ra.resume_id == rd.id)).any
          (fun ra => decide ((70 : ℚ) ≤ ra.ats_score)) := by
    unfold hasHighScore
    rw [List.any_filter]
  cases h : (anas.filter (fun ra => ra.resume_id == rd.id)).isEmpty
  · rw [joinBlock_nonempty anas rd h]
    by_cases hp : p rd = true
    · by_cases hs : hasHighScore anas rd = true
      · rw [if_pos (by rw [hp, hs]; rfl)]
        have hex : ∃ ra ∈ anas.filter (fun ra => ra.resume_id == rd.id),
            decide ((70 : ℚ) ≤ ra.ats_score) = true := by
          rw [← List.any_eq_true, ← hany]
          exact hs
        obtain ⟨ra0, hra0, hsc0⟩ := hex
        ext x
        simp only [List.mem_toFinset, List.mem_map, List.mem_filter, Finset.mem_singleton]
        constructor
        · rintro ⟨q, ⟨⟨ra, ⟨hra, hid⟩, rfl⟩, _⟩, rfl⟩
          rfl
        · rintro rfl
          refine ⟨(rd, some ra0), ⟨⟨ra0, List.mem_filter.1 hra0, rfl⟩, ?_⟩, rfl⟩
          simp [hp, scoreHigh, hsc0]
      · rw [if_neg (by simp [hs])]
        have hnil : (((anas.filter (fun ra => ra.resume_id == rd.id)).map
            (fun ra => (rd, some ra))).filter (fun q => p q.1 && scoreHigh q.2)) = [] := by
          rw [List.filter_eq_nil_iff]
          intro q hq
          obtain ⟨ra, hra, rfl⟩ := List.mem_map.1 hq
          intro hcon
          apply hs
          rw [hany, List.any_eq_true]
          refine ⟨ra, hra, ?_⟩
          have hc : p rd = true ∧ (70 : ℚ) ≤ ra.ats_score := by
            simpa [scoreHigh] using hcon
          simp [hc.2]
        rw [hnil]
        rfl
    · rw [if_neg (by simp [hp])]
      have hnil : (((anas.filter (fun ra => ra.resume_id == rd.id)).map
          (fun ra => (rd, some ra))).filter (fun q => p q.1 && scoreHigh q.2)) = [] := by
        rw [List.filter_eq_nil_iff]
        intro q hq
        obtain ⟨ra, hra, rfl⟩ := List.mem_map.1 hq
        simp [hp]
      rw [hnil]
      rfl
  · rw [joinBlock_empty anas rd h]
    have hnos : hasHighScore anas rd = false := by
      rw [hany, List.isEmpty_iff.1 h]
      rfl
    rw [if_neg (by simp [hnos])]
    simp [List.filter_cons, scoreHigh]

lemma flat_window_toFinset (anas : List AnalysisRow) (rds : List ResumeRow)
    (p : ResumeRow → Bool) :
    ((((rds.flatMap (joinBlock anas)).filter (fun q => p q.1)).map
        (fun q => q.1.id)).toFinset)
      = ((rds.filter p).map ResumeRow.id).toFinset := by
  induction rds with
  | nil => rfl
  | cons rd rest ih =>
    rw [List.flatMap_cons, List.filter_append, List.map_append, List.toFinset_append, ih,
      List.filter_cons]
    by_cases hp : p rd = true
    · rw [if_pos hp]
      rw [show ((((joinBlock anas rd).filter (fun q => p q.1)).map
          (fun q => q.1.id)).toFinset) = {rd.id} by
        rw [joinBlock_filter_window anas rd p, if_pos hp]]
      simp [List.toFinset_cons, Finset.insert_eq]
    · rw [if_neg hp]
      rw [show ((((joinBlock anas rd).filter (fun q => p q.1)).map
          (fun q => q.1.id)).toFinset) = ∅ by
        rw [joinBlock_filter_window anas rd p, if_neg hp]]
      simp

lemma flat_high_toFinset (anas : List AnalysisRow) (rds : List ResumeRow)
    (p : ResumeRow → Bool) :
    ((((rds.flatMap (joinBlock anas)).filter (fun q => p q.1 && scoreHigh q.2)).map
        (fun q => q.1.id)).toFinset)
      = ((rds.filter (fun rd => p rd && hasHighScore anas rd)).map ResumeRow.id).toFinset := by
  induction rds with
  | nil => rfl
  | cons rd rest ih =>
    rw [List.flatMap_cons, List.filter_append, List.map_append, List.toFinset_append, ih,
      List.filter_cons]
    by_cases hp : (p rd && hasHighScore anas rd) = true
    · rw [if_pos hp]
      rw [show ((((joinBlock anas rd).filter (fun q => p q.1 && scoreHigh q.2)).map
          (fun q => q.1.id)).toFinset) = {rd.id} by
        rw [joinBlock_filter_high anas rd p, if_pos hp]]
      simp [List.toFinset_cons, Finset.insert_eq]
    · rw [if_neg hp]
      rw [show ((((joinBlock anas rd).filter (fun q => p q.1 && scoreHigh q.2)).map
          (fun q => q.1.id)).toFinset) = ∅ by
        rw [joinBlock_filter_high anas rd p, if_neg hp]]
      simp

/-- `COUNT(DISTINCT rd.id)` over the filtered join equals the number of
distinct resumes created at/after the window start. -/
lemma metricsFor_total (db : ResumeDB) (start : DT) :
    (metricsFor db start).total = specTotal db start := by
  show (((qualRows db start).map (fun p => p.1.id)).dedup).length = specTotal db start
  unfold specTotal qualRows leftJoin
  rw [← List.card_toFinset, ← List.card_toFinset, flat_window_toFinset]

/-- `COUNT(DISTINCT CASE WHEN ra.ats_score >= 70 THEN rd.id END)` over
the filtered join equals the number of distinct in-window resumes some
analysis of which scores at least 70. -/
lemma metricsFor_high (db : ResumeDB) (start : DT) :
    (metricsFor db start).high_scoring = specHigh db start := by
  show ((((qualRows db start).filter
      (fun p => scoreHigh p.2)).map (fun p => p.1.id)).dedup).length = specHigh db start
  unfold specHigh qualRows leftJoin
  rw [← List.card_toFinset, ← List.card_toFinset, List.filter_filter,
    show (fun (q : ResumeRow × Option AnalysisRow) => scoreHigh q.2 && inWindow start q.1)
      = (fun q => inWindow start q.1 && scoreHigh q.2) from by
        funext q
        rw [Bool.and_comm],
    flat_high_toFinset db.resume_analysis db.resume_data (inWindow start)]

/-- C1: for every database state and reference time, each of the four
windows of `get_resume_metrics` reports as `total` the count of
distinct resume records created at or after that window's start, and as
`high_scoring` the count of distinct in-window resumes whose
`ats_score` is at least 70. -/
theorem C1_window_counts (now : DT) (db : ResumeDB) (period : String) (start : DT)
    (h : (period, start) ∈ windows now) :
    ∃ m, (period, m) ∈ get_resume_metrics now db ∧
      m.total = specTotal db start ∧ m.high_scoring = specHigh db start := by
  refine ⟨metricsFor db start, ?_, metricsFor_total db start, metricsFor_high db start⟩
  unfold get_resume_metrics
  exact List.mem_map_of_mem _ h

/-- A reference time used to instantiate the universal theorems:
Wednesday 2026-10-07, 15:30:00. -/
def refNow : DT := ⟨2026, 10, 7, 15, 30, 0⟩

/-- A small concrete database: two resumes, one analysed at 85, one at 50. -/
def dbSample : ResumeDB :=
  ⟨[⟨1, ⟨2026, 10, 6, 12, 0, 0⟩, "Python,SQL"⟩, ⟨2, ⟨2026, 9, 1, 8, 0, 0⟩, "Go"⟩],
   [⟨1, 85, 60⟩, ⟨2, 50, 40⟩]⟩

theorem C1_window_counts_witness :
    ∃ m, ("Today", m) ∈ get_resume_metrics refNow dbSample ∧
      m.total = specTotal dbSample (startOfDay refNow) ∧
      m.high_scoring = specHigh dbSample (startOfDay refNow) :=
  C1_window_counts refNow dbSample "Today" (startOfDay refNow)
    (by unfold windows; exact List.mem_cons_self _ _)

lemma specHigh_le_specTotal (db : ResumeDB) (start : DT) :
    specHigh db start ≤ specTotal db start := by
  unfold specHigh specTotal
  rw [← List.card_toFinset, ← List.card_toFinset]
  apply Finset.card_le_card
  intro x hx
  simp only [List.mem_toFinset, List.mem_map, List.mem_filter] at hx ⊢
  obtain ⟨rd, ⟨hmem, hcond⟩, rfl⟩ := hx
  rw [Bool.and_eq_true] at hcond
  exact ⟨rd, ⟨hmem, hcond.1⟩, rfl⟩

/-- C9: in every window of `get_resume_metrics`, the high-scoring count
never exceeds the total count. -/
theorem C9_high_le_total (now : DT) (db : ResumeDB) (period : String) (m : Metrics)
    (h : (period, m) ∈ get_resume_metrics now db) :
    m.high_scoring ≤ m.total := by
  unfold get_resume_metrics at h
  obtain ⟨ps, _, heq⟩ := List.mem_map.1 h
  have hm : m = metricsFor db ps.2 := by
    have := congrArg Prod.snd heq
    simpa using this.symm
  rw [hm, metricsFor_total, metricsFor_high]
  exact specHigh_le_specTotal db ps.2

theorem C9_high_le_total_witness :
    (metricsFor dbSample allTimeStart).high_scoring ≤ (metricsFor dbSample allTimeStart).total :=
  C9_high_le_total refNow dbSample "All Time" (metricsFor dbSample allTimeStart)
    (by unfold get_resume_metrics windows
        simp)

lemma qualRows_nil (db : ResumeDB) (start : DT)
    (h : db.resume_data.filter (inWindow start) = []) :
    qualRows db start = [] := by
  unfold qualRows
  rw [List.filter_eq_nil_iff]
  intro q hq
  unfold leftJoin at hq
  obtain ⟨rd, hrd, hqb⟩ := List.mem_flatMap.1 hq
  have h1 := joinBlock_fst db.resume_analysis rd q hqb
  rw [List.filter_eq_nil_iff] at h
  have h2 := h rd hrd
  rw [h1]
  simpa using h2

lemma mem_leftJoin_snd (db : ResumeDB) (q : ResumeRow × Option AnalysisRow)
    (hq : q ∈ leftJoin db) (ra : AnalysisRow) (h2 : q.2 = some ra) :
    ra ∈ db.resume_analysis := by
  unfold leftJoin at hq
  obtain ⟨rd, _, hqb⟩ := List.mem_flatMap.1 hq
  cases hh : (db.resume_analysis.filter (fun x => x.resume_id == rd.id)).isEmpty
  · rw [joinBlock_nonempty _ _ hh] at hqb
    obtain ⟨ra', hra', heq⟩ := List.mem_map.1 hqb
    rw [← heq] at h2
    simp only [Option.some.injEq] at h2
    rw [← h2]
    exact List.mem_of_mem_filter hra'
  · rw [joinBlock_empty _ _ hh] at hqb
    simp only [List.mem_singleton] at hqb
    rw [hqb] at h2
    simp at h2

lemma avg_mem_bounds (l : List ℚ) (hne : l.isEmpty = false)
    (h : ∀ v ∈ l, 0 ≤ v ∧ v ≤ 100) :
    0 ≤ l.sum / l.length ∧ l.sum / l.length ≤ 100 := by
  have hne' : l ≠ [] := by
    intro hcon
    rw [hcon] at hne
    simp at hne
  have hlen : 0 < (l.length : ℚ) := by
    have := List.length_pos.2 hne'
    exact_mod_cast this
  have hs0 : 0 ≤ l.sum := List.sum_nonneg (fun v hv => (h v hv).1)
  have hs1 : l.sum ≤ (l.length : ℚ) * 100 := by
    calc l.sum ≤ l.length • (100 : ℚ) := List.sum_le_card_nsmul l 100 (fun v hv => (h v hv).2)
    _ = (l.length : ℚ) * 100 := by rw [nsmul_eq_mul]
  refine ⟨div_nonneg hs0 (le_of_lt hlen), ?_⟩
  rw [div_le_iff₀ hlen]
  linarith

lemma sqlRound1_bounds (q : ℚ) (h0 : 0 ≤ q) (h1 : q ≤ 100) :
    0 ≤ sqlRound1 q ∧ sqlRound1 q ≤ 100 := by
  unfold sqlRound1
  rw [if_pos h0]
  constructor
  · apply div_nonneg _ (by norm_num)
    exact_mod_cast Int.floor_nonneg.2 (by linarith)
  · rw [div_le_iff₀ (by norm_num : (0 : ℚ) < 10)]
    have hmono : ⌊q * 10 + 1 / 2⌋ ≤ ⌊(2001 : ℚ) / 2⌋ := Int.floor_le_floor (by linarith)
    have hval : ⌊(2001 : ℚ) / 2⌋ = 1000 := by
      norm_num [Int.floor_eq_iff]
    rw [hval] at hmono
    have : ((⌊q * 10 + 1 / 2⌋ : ℤ) : ℚ) ≤ 1000 := by exact_mod_cast hmono
    linarith

lemma atsVals_bounds (db : ResumeDB) (start : DT)
    (hdb : ∀ ra ∈ db.resume_analysis,
      0 ≤ ra.ats_score ∧ ra.ats_score ≤ 100) :
    ∀ v ∈ atsVals db start, 0 ≤ v ∧ v ≤ 100 := by
  intro v hv
  unfold atsVals at hv
  obtain ⟨q, hq, hmap⟩ := List.mem_filterMap.1 hv
  have hq' : q ∈ leftJoin db := List.mem_of_mem_filter hq
  cases h2 : q.2 with
  | none => rw [h2] at hmap; simp at hmap
  | some ra =>
    rw [h2] at hmap
    simp only [Option.map_some', Option.some.injEq] at hmap
    rw [← hmap]
    exact hdb ra (mem_leftJoin_snd db q hq' ra h2)

lemma kwVals_bounds (db : ResumeDB) (start : DT)
    (hdb : ∀ ra ∈ db.resume_analysis,
      0 ≤ ra.keyword_match_score ∧ ra.keyword_match_score ≤ 100) :
    ∀ v ∈ kwVals db start, 0 ≤ v ∧ v ≤ 100 := by
  intro v hv
  unfold kwVals at hv
  obtain ⟨q, hq, hmap⟩ := List.mem_filterMap.1 hv
  have hq' : q ∈ leftJoin db := List.mem_of_mem_filter hq
  cases h2 : q.2 with
  | none => rw [h2] at hmap; simp at hmap
  | some ra =>
    rw [h2] at hmap
    simp only [Option.map_some', Option.some.injEq] at hmap
    rw [← hmap]
    exact hdb ra (mem_leftJoin_snd db q hq' ra h2)

/-- C8: `get_resume_metrics` (a total function here, as in the code,
which catches nothing because the query cannot fail) degrades silently:
a window with no qualifying resume rows yields all four fields exactly
`0` (the NULL averages coalesced by `or 0`), and whenever all stored
scores lie in `[0, 100]` the two average fields also lie in `[0, 100]`
(in particular when qualifying rows exist). -/
theorem C8_silent_degradation (db : ResumeDB) (start : DT) :
    (db.resume_data.filter (inWindow start) = [] →
      metricsFor db start = ⟨0, 0, 0, 0⟩) ∧
    ((∀ ra ∈ db.resume_analysis,
        (0 ≤ ra.ats_score ∧ ra.ats_score ≤ 100) ∧
        (0 ≤ ra.keyword_match_score ∧ ra.keyword_match_score ≤ 100)) →
      (0 ≤ (metricsFor db start).ats_score ∧ (metricsFor db start).ats_score ≤ 100) ∧
      (0 ≤ (metricsFor db start).keyword_score ∧ (metricsFor db start).keyword_score ≤ 100)) := by
  constructor
  · intro h
    have hq := qualRows_nil db start h
    unfold metricsFor atsVals kwVals
    rw [hq]
    rfl
  · intro hdb
    have hats : (metricsFor db start).ats_score = if (atsVals db start).isEmpty then 0
        else sqlRound1 ((atsVals db start).sum / (atsVals db start).length) := rfl
    have hkw : (metricsFor db start).keyword_score = if (kwVals db start).isEmpty then 0
        else sqlRound1 ((kwVals db start).sum / (kwVals db start).length) := rfl
    rw [hats, hkw]
    constructor
    · cases he : (atsVals db start).isEmpty
      · rw [if_neg Bool.false_ne_true]
        have hb := avg_mem_bounds (atsVals db start) he
          (atsVals_bounds db start (fun ra hra => (hdb ra hra).1))
        exact sqlRound1_bounds _ hb.1 hb.2
      · rw [if_pos rfl]
        norm_num
    · cases he : (kwVals db start).isEmpty
      · rw [if_neg Bool.false_ne_true]
        have hb := avg_mem_bounds (kwVals db start) he
          (kwVals_bounds db start (fun ra hra => (hdb ra hra).2))
        exact sqlRound1_bounds _ hb.1 hb.2
      · rw [if_pos rfl]
        norm_num

theorem C8_silent_degradation_witness :
    metricsFor ⟨[], []⟩ (startOfDay refNow) = ⟨0, 0, 0, 0⟩ ∧
    (0 ≤ (metricsFor dbSample allTimeStart).ats_score ∧
      (metricsFor dbSample allTimeStart).ats_score ≤ 100) := by
  constructor
  · exact (C8_silent_degradation ⟨[], []⟩ (startOfDay refNow)).1 rfl
  · refine ((C8_silent_degradation dbSample allTimeStart).2 ?_).1
    intro ra hra
    have hra' : ra = ⟨1, 85, 60⟩ ∨ ra = ⟨2, 50, 40⟩ := by
      simpa [dbSample] using hra
    rcases hra' with rfl | rfl <;> norm_num

/-- A resume stored with a pre-2000 creation timestamp. -/
def dbOld : ResumeDB := ⟨[⟨1, ⟨1999, 6, 15, 12, 0, 0⟩, "Python"⟩], []⟩

/-- C3 counterexample: the `'All Time'` window starts at
`datetime(2000, 1, 1)`, not at the beginning of time, so a resume whose
`created_at` is `1999-06-15 12:00:00` is stored (`resume_data` has one
row) yet counted by no window: the `'All Time'` total is `0`, refuting
"every stored resume record is counted, regardless of how old its
creation timestamp is". -/
theorem C3_all_time_counterexample :
    ("All Time", metricsFor dbOld allTimeStart) ∈ get_resume_metrics refNow dbOld ∧
    (metricsFor dbOld allTimeStart).total = 0 ∧
    dbOld.resume_data.length = 1 ∧
    (metricsFor dbOld allTimeStart).total ≠ dbOld.resume_data.length := by
  refine ⟨?_, rfl, rfl, by decide⟩
  unfold get_resume_metrics windows
  simp

/-- C3 (amended): the `'All Time'` total of `get_resume_metrics` equals
the count of distinct resumes with `created_at >= '2000-01-01 00:00:00'`;
rows stamped earlier are excluded. -/
theorem C3_all_time_total_amended (now : DT) (db : ResumeDB) :
    ∃ m, ("All Time", m) ∈ get_resume_metrics now db ∧
      m.total = specTotal db allTimeStart := by
  refine ⟨metricsFor db allTimeStart, ?_, metricsFor_total db allTimeStart⟩
  unfold get_resume_metrics windows
  simp

/-- C4 counterexample: at reference time Wednesday 2026-10-07 15:30:00,
the `'This Week'` lower bound is Monday 2026-10-05 **15:30:00** (not
midnight) and the `'This Month'` lower bound is 2026-10-01 **15:30:00**
(not midnight): `now - timedelta(days=now.weekday())` and
`now.replace(day=1)` keep the time of day. -/
theorem C4_counterexample :
    startOfWeek refNow = ⟨2026, 10, 5, 15, 30, 0⟩ ∧
    startOfWeek refNow ≠ ⟨2026, 10, 5, 0, 0, 0⟩ ∧
    startOfMonth refNow = ⟨2026, 10, 1, 15, 30, 0⟩ ∧
    startOfMonth refNow ≠ ⟨2026, 10, 1, 0, 0, 0⟩ := by
  decide

/-- C4 (amended): `'Today'` starts at midnight of the current day, but
`'This Week'` starts on the current week's Monday at the reference
time's time of day, and `'This Month'` starts on the month's first day
at the reference time's time of day (midnight only when the reference
time itself is midnight). -/
theorem C4_window_starts_amended (now : DT) (h : ValidDate now.date)
    (hdays : 6 ≤ toDays now.date) :
    startOfDay now = ⟨now.year, now.month, now.day, 0, 0, 0⟩ ∧
    (startOfWeek now).hour = now.hour ∧
    (startOfWeek now).minute = now.minute ∧
    (startOfWeek now).second = now.second ∧
    (startOfWeek now).date.weekday = 0 ∧
    startOfMonth now = ⟨now.year, now.month, 1, now.hour, now.minute, now.second⟩ := by
  refine ⟨rfl, rfl, rfl, rfl, ?_, rfl⟩
  have hw : now.date.weekday ≤ 6 := by
    unfold Date.weekday
    omega
  obtain ⟨hv, hd⟩ := subDaysD_spec now.date now.date.weekday h (by omega)
  show (subDaysD now.date now.date.weekday).weekday = 0
  unfold Date.weekday at *
  omega

theorem C4_window_starts_amended_witness :
    startOfDay refNow = ⟨2026, 10, 7, 0, 0, 0⟩ ∧
    (startOfWeek refNow).hour = 15 ∧
    (startOfWeek refNow).minute = 30 ∧
    (startOfWeek refNow).second = 0 ∧
    (startOfWeek refNow).date.weekday = 0 ∧
    startOfMonth refNow = ⟨2026, 10, 1, 15, 30, 0⟩ :=
  C4_window_starts_amended refNow (by decide) (by decide)

/-!
## `DashboardManager.get_weekly_trends`

```python
dates = [(now - timedelta(days=x)).strftime('%Y-%m-%d') for x in range(6, -1, -1)]
for date in dates:
    cursor.execute("SELECT COUNT(*) FROM resume_data WHERE DATE(created_at) = DATE(?)", (date,))
    submissions.append(cursor.fetchone()[0])
return [d[-3:] for d in dates], submissions
``` -/

/-- Zero-pad to two digits (the `%m`/`%d` fields of `strftime`). -/
def pad2 (n : Nat) : String := if n < 10 then "0" ++ toString n else toString n

/-- Zero-pad to four digits (the `%Y` field of `strftime`). -/
def pad4 (n : Nat) : String :=
  if n < 10 then "000" ++ toString n
  else if n < 100 then "00" ++ toString n
  else if n < 1000 then "0" ++ toString n
  else toString n

/-- `strftime('%Y-%m-%d')`. -/
def fmtDate (d : Date) : String := pad4 d.year ++ "-" ++ pad2 d.month ++ "-" ++ pad2 d.day

/-- The dates `now - timedelta(days=x)` for `x in range(6, -1, -1)`:
six days ago first, today last. -/
def weekDates (now : DT) : List Date :=
  ((List.range 7).reverse).map (fun x => subDaysD now.date x)

/-- `DashboardManager.get_weekly_trends`: the `d[-3:]` labels and, per
day, `COUNT(*)` of rows whose `DATE(created_at)` equals that day. -/
def get_weekly_trends (now : DT) (db : ResumeDB) : List String × List Nat :=
  ((weekDates now).map (fun d => (fmtDate d).takeRight 3),
   (weekDates now).map
     (fun d => (db.resume_data.filter (fun rd => rd.created_at.date == d)).length))

/-- C5: `get_weekly_trends` returns exactly 7 labels and 7 counts; the
underlying 7 dates are consecutive-day ascending (oldest first) and end
at today's date; each count is the number of records whose creation
date — time of day ignored — equals that date; each label is the
3-character day-of-month suffix of the formatted date string. -/
theorem C5_weekly_trends (now : DT) (db : ResumeDB) (h : ValidDate now.date)
    (hdays : 6 ≤ toDays now.date) :
    (get_weekly_trends now db).1.length = 7 ∧
    (get_weekly_trends now db).2.length = 7 ∧
    List.Pairwise (fun a b => toDays a < toDays b) (weekDates now) ∧
    (weekDates now).getLast? = some now.date ∧
    (get_weekly_trends now db).2 = (weekDates now).map
      (fun d => (db.resume_data.filter (fun rd => rd.created_at.date == d)).length) ∧
    (get_weekly_trends now db).1 = (weekDates now).map (fun d => (fmtDate d).takeRight 3) := by
  have hk : ∀ k, k ≤ 6 → toDays (subDaysD now.date k) = toDays now.date - k :=
    fun k hkle => (subDaysD_spec now.date k h (le_trans hkle hdays)).2
  have h0 := hk 0 (by omega)
  have h1 := hk 1 (by omega)
  have h2 := hk 2 (by omega)
  have h3 := hk 3 (by omega)
  have h4 := hk 4 (by omega)
  have h5 := hk 5 (by omega)
  have h6 := hk 6 (by omega)
  have hwd : weekDates now = [subDaysD now.date 6, subDaysD now.date 5, subDaysD now.date 4,
      subDaysD now.date 3, subDaysD now.date 2, subDaysD now.date 1, subDaysD now.date 0] := rfl
  refine ⟨?_, ?_, ?_, ?_, rfl, rfl⟩
  · simp [get_weekly_trends, weekDates]
  · simp [get_weekly_trends, weekDates]
  · rw [hwd]
    refine .cons ?_ (.cons ?_ (.cons ?_ (.cons ?_ (.cons ?_ (.cons ?_ (.cons ?_ .nil)))))) <;>
      (intro b hb
       fin_cases hb <;> simp only [h0, h1, h2, h3, h4, h5, h6] <;> omega)
  · rw [hwd]
    rfl

theorem C5_weekly_trends_witness :
    (get_weekly_trends refNow dbSample).1.length = 7 ∧
    (get_weekly_trends refNow dbSample).2.length = 7 ∧
    List.Pairwise (fun a b => toDays a < toDays b) (weekDates refNow) ∧
    (weekDates refNow).getLast? = some refNow.date ∧
    (get_weekly_trends refNow dbSample).2 = (weekDates refNow).map
      (fun d => (dbSample.resume_data.filter (fun rd => rd.created_at.date == d)).length) ∧
    (get_weekly_trends refNow dbSample).1 = (weekDates refNow).map
      (fun d => (fmtDate d).takeRight 3) :=
  C5_weekly_trends refNow dbSample (by decide) (by decide)

/-!
## `DashboardManager.get_skill_distribution`

The recursive CTE seeds `('', skills || ',')` per `resume_data` row and
repeatedly takes `substr(rest, 0, instr(rest, ','))` — the text before
the first comma — as the next token, so a row's `skills` string is cut
verbatim at the commas (no trimming, no case folding); empty tokens are
dropped by `WHERE skill <> ''`; then
`GROUP BY skill ORDER BY count DESC LIMIT 10`. -/

/-- Cut a character list at commas: the segments between commas, in
order (the final segment included, matching the CTE over `s || ','`). -/
def splitOnComma : List Char → List Char → List (List Char)
  | [], acc => [acc.reverse]
  | c :: rest, acc =>
    if c = ',' then acc.reverse :: splitOnComma rest []
    else splitOnComma rest (c :: acc)

/-- The CTE's tokens of one `skills` string: verbatim comma segments,
empties discarded. -/
def splitSkills (s : String) : List String :=
  ((splitOnComma s.data []).map (fun cs => String.mk cs)).filter (fun t => t ≠ "")

/-- All tokens across all `resume_data` rows. -/
def skillTokens (db : ResumeDB) : List String :=
  db.resume_data.flatMap (fun rd => splitSkills rd.skills)

/-- `GROUP BY skill` with `COUNT(*)`: one `(skill, count)` pair per
distinct token. -/
def skillCounts (db : ResumeDB) : List (String × Nat) :=
  ((skillTokens db).dedup).map (fun t => (t, (skillTokens db).count t))

/-- Descending-count comparison used for `ORDER BY count DESC`
(ties left in scan order, as SQLite leaves them unspecified). -/
def countGE (a b : String × Nat) : Prop := b.2 ≤ a.2

instance : DecidableRel countGE := fun a b => inferInstanceAs (Decidable (b.2 ≤ a.2))

instance : IsTotal (String × Nat) countGE := ⟨fun a b => (le_total b.2 a.2).imp id id⟩

instance : IsTrans (String × Nat) countGE := ⟨fun _ _ _ hab hbc => le_trans hbc hab⟩

/-- `DashboardManager.get_skill_distribution`:
`ORDER BY count DESC LIMIT 10` over the grouped tokens (returned in the
code as two parallel lists; paired here). -/
def get_skill_distribution (db : ResumeDB) : List (String × Nat) :=
  (List.insertionSort countGE (skillCounts db)).take 10

/-- The database of the claim's concrete example: skills fields
`"Python,SQL"`, `"Python,Go"`, `"SQL"`. -/
def dbSkills : ResumeDB :=
  ⟨[⟨1, ⟨2026, 10, 6, 12, 0, 0⟩, "Python,SQL"⟩,
    ⟨2, ⟨2026, 10, 6, 13, 0, 0⟩, "Python,Go"⟩,
    ⟨3, ⟨2026, 10, 6, 14, 0, 0⟩, "SQL"⟩], []⟩

/-- C2: `get_skill_distribution` counts each comma-cut non-empty token
across all records, returns at most 10 pairs in descending count order,
every returned pair carries the token's true occurrence count, any
token left out has a count no larger than any returned one, and on the
records `"Python,SQL"`, `"Python,Go"`, `"SQL"` it returns
`[("Python", 2), ("SQL", 2), ("Go", 1)]` — an order consistent with
descending counts. -/
theorem C2_skill_distribution (db : ResumeDB) :
    (∀ p ∈ get_skill_distribution db, p.2 = (skillTokens db).count p.1) ∧
    List.Sorted countGE (get_skill_distribution db) ∧
    (get_skill_distribution db).length ≤ 10 ∧
    (∀ t, t ∈ skillTokens db → t ∉ (get_skill_distribution db).map Prod.fst →
      ∀ p ∈ get_skill_distribution db, (skillTokens db).count t ≤ p.2) ∧
    get_skill_distribution dbSkills = [("Python", 2), ("SQL", 2), ("Go", 1)] := by
  refine ⟨?_, ?_, ?_, ?_, by decide⟩
  · intro p hp
    have hp1 : p ∈ List.insertionSort countGE (skillCounts db) :=
      List.mem_of_mem_take hp
    have hp2 : p ∈ skillCounts db := (List.perm_insertionSort countGE _).mem_iff.1 hp1
    obtain ⟨t, _, rfl⟩ := List.mem_map.1 hp2
    rfl
  · exact (List.sorted_insertionSort countGE (skillCounts db)).sublist
      (List.take_sublist 10 _)
  · exact List.length_take_le 10 _
  · intro t ht hnot p hp
    have htd : t ∈ (skillTokens db).dedup := List.mem_dedup.2 ht
    have htc : (t, (skillTokens db).count t) ∈ skillCounts db :=
      List.mem_map_of_mem _ htd
    have hts : (t, (skillTokens db).count t) ∈ List.insertionSort countGE (skillCounts db) :=
      (List.perm_insertionSort countGE _).mem_iff.2 htc
    have htdrop : (t, (skillTokens db).count t)
        ∈ (List.insertionSort countGE (skillCounts db)).drop 10 := by
      have hsplit : List.insertionSort countGE (skillCounts db)
          = (List.insertionSort countGE (skillCounts db)).take 10
            ++ (List.insertionSort countGE (skillCounts db)).drop 10 :=
        (List.take_append_drop 10 _).symm
      rw [hsplit] at hts
      rcases List.mem_append.1 hts with hmem | hmem
      · exact absurd (List.mem_map_of_mem Prod.fst hmem) hnot
      · exact hmem
    exact (List.sorted_insertionSort countGE (skillCounts db)).rel_of_mem_take_of_mem_drop
      hp htdrop

theorem C2_skill_distribution_witness :
    ("Python", 2).2 = (skillTokens dbSkills).count ("Python", 2).1 ∧
    get_skill_distribution dbSkills = [("Python", 2), ("SQL", 2), ("Go", 1)] :=
  ⟨(C2_skill_distribution dbSkills).1 ("Python", 2) (by decide),
   (C2_skill_distribution dbSkills).2.2.2.2⟩

/-- Records whose skills fields differ only by a space after the comma. -/
def dbSkillsWS : ResumeDB :=
  ⟨[⟨1, ⟨2026, 10, 6, 12, 0, 0⟩, "Python,SQL"⟩,
    ⟨2, ⟨2026, 10, 6, 13, 0, 0⟩, "Python, SQL"⟩], []⟩

/-- C10: the histogram performs no token normalization: tokens are the
verbatim text between commas, so `"Python,SQL"` yields
`["Python", "SQL"]` while `"Python, SQL"` yields `["Python", " SQL"]`,
and `"SQL"` / `" SQL"` are distinct tokens counted separately. -/
theorem C10_no_normalization :
    splitSkills "Python,SQL" = ["Python", "SQL"] ∧
    splitSkills "Python, SQL" = ["Python", " SQL"] ∧
    "SQL" ≠ " SQL" ∧
    get_skill_distribution dbSkillsWS = [("Python", 2), ("SQL", 1), (" SQL", 1)] := by
  decide

/-!
## `FeedbackManager` (`src/feedback/feedback.py`)

Schema: `feedback(id INTEGER PRIMARY KEY AUTOINCREMENT, rating INTEGER,
usability_score INTEGER, feature_satisfaction INTEGER,
missing_features TEXT, improvement_suggestions TEXT,
user_experience TEXT, timestamp DATETIME)`.

`get_feedback_stats` reads the whole table into a data frame and takes
`df.mean()` — the arithmetic mean of each numeric column (`id` and the
three ratings; the TEXT and DATETIME columns are non-numeric) — or
returns an empty dict when no rows exist. -/

/-- The form payload passed to `save_feedback` (the dict built in
`render_feedback_form`, in insertion order). -/
structure FeedbackInput where
  rating : Int
  usability_score : Int
  feature_satisfaction : Int
  missing_features : String
  improvement_suggestions : String
  user_experience : String

/-- One stored `feedback` row. -/
structure FeedbackRow where
  id : Int
  rating : Int
  usability_score : Int
  feature_satisfaction : Int
  missing_features : String
  improvement_suggestions : String
  user_experience : String
  timestamp : DT

/-- `FeedbackManager.save_feedback`: INSERT one row with the
server-assigned `datetime.now()` timestamp; `AUTOINCREMENT` assigns the
next id (`length + 1` for this append-only table). -/
def save_feedback (db : List FeedbackRow) (d : FeedbackInput) (now : DT) :
    List FeedbackRow :=
  db ++ [⟨(db.length : Int) + 1, d.rating, d.usability_score, d.feature_satisfaction,
    d.missing_features, d.improvement_suggestions, d.user_experience, now⟩]

/-- The column means `df.mean().to_dict()` yields (numeric columns). -/
structure FeedbackStats where
  id : ℚ
  rating : ℚ
  usability_score : ℚ
  feature_satisfaction : ℚ
deriving DecidableEq, Repr

/-- Arithmetic mean of one integer column. -/
def colMean (db : List FeedbackRow) (f : FeedbackRow → Int) : ℚ :=
  ((db.map f).sum : ℚ) / db.length

/-- `FeedbackManager.get_feedback_stats`: column means over all rows,
or the empty result (`{}`) when the table is empty. -/
def get_feedback_stats (db : List FeedbackRow) : Option FeedbackStats :=
  if db.isEmpty then none
  else some ⟨colMean db FeedbackRow.id, colMean db FeedbackRow.rating,
    colMean db FeedbackRow.usability_score, colMean db FeedbackRow.feature_satisfaction⟩

/-- C6: `get_feedback_stats` returns the arithmetic mean of each
numeric column over all stored records (shown for the rating column),
returns the mean rating `4` for stored ratings `[5, 3, 4]`, and returns
the empty result — not an error — when no records exist. -/
theorem C6_feedback_stats (db : List FeedbackRow) (r1 r2 r3 : FeedbackRow)
    (h1 : r1.rating = 5) (h2 : r2.rating = 3) (h3 : r3.rating = 4) :
    get_feedback_stats [] = none ∧
    (db ≠ [] → ∃ s, get_feedback_stats db = some s ∧
      s.rating = ((db.map FeedbackRow.rating).sum : ℚ) / db.length ∧
      s.usability_score = ((db.map FeedbackRow.usability_score).sum : ℚ) / db.length ∧
      s.feature_satisfaction
        = ((db.map FeedbackRow.feature_satisfaction).sum : ℚ) / db.length) ∧
    (∃ s, get_feedback_stats [r1, r2, r3] = some s ∧ s.rating = 4) := by
  refine ⟨rfl, ?_, ?_⟩
  · intro hne
    cases hi : db.isEmpty
    · refine ⟨⟨colMean db FeedbackRow.id, colMean db FeedbackRow.rating,
        colMean db FeedbackRow.usability_score,
        colMean db FeedbackRow.feature_satisfaction⟩, ?_, rfl, rfl, rfl⟩
      unfold get_feedback_stats
      rw [hi, if_neg Bool.false_ne_true]
    · exact absurd (List.isEmpty_iff.1 hi) hne
  · refine ⟨_, rfl, ?_⟩
    show colMean [r1, r2, r3] FeedbackRow.rating = 4
    unfold colMean
    rw [List.map_cons, List.map_cons, List.map_cons, List.map_nil]
    rw [h1, h2, h3]
    norm_num

/-- A concrete feedback row with the given rating. -/
def fbRow (n : Int) : FeedbackRow := ⟨1, n, 5, 5, "", "", "", refNow⟩

theorem C6_feedback_stats_witness :
    get_feedback_stats [] = none ∧
    (∃ s, get_feedback_stats [fbRow 5] = some s ∧
      s.rating = ((([fbRow 5]).map FeedbackRow.rating).sum : ℚ) / ([fbRow 5]).length ∧
      s.usability_score
        = ((([fbRow 5]).map FeedbackRow.usability_score).sum : ℚ) / ([fbRow 5]).length ∧
      s.feature_satisfaction
        = ((([fbRow 5]).map FeedbackRow.feature_satisfaction).sum : ℚ) / ([fbRow 5]).length) ∧
    (∃ s, get_feedback_stats [fbRow 5, fbRow 3, fbRow 4] = some s ∧ s.rating = 4) := by
  have h := C6_feedback_stats [fbRow 5] (fbRow 5) (fbRow 3) (fbRow 4) rfl rfl rfl
  exact ⟨h.1, h.2.1 (List.cons_ne_nil _ _), h.2.2⟩

/-- C7 (round-trip): saving one feedback record into an empty store and
then querying the stats returns that record's own numeric rating values
unchanged — averaging a single record is the identity on its numeric
fields. -/
theorem C7_save_then_stats_roundtrip (now : DT) (d : FeedbackInput) :
    ∃ s, get_feedback_stats (save_feedback [] d now) = some s ∧
      s.rating = (d.rating : ℚ) ∧
      s.usability_score = (d.usability_score : ℚ) ∧
      s.feature_satisfaction = (d.feature_satisfaction : ℚ) := by
  refine ⟨_, rfl, ?_, ?_, ?_⟩ <;>
    (show colMean (save_feedback [] d now) _ = _
     unfold colMean save_feedback
     simp)
